import Mathlib

/-!
Verification development for `src/packages/just-task/src/profiler.ts`:
an in-memory start/stop event recorder (`Profiler`) that serializes its
entries to a Chrome-trace-format JSON file.

Modelling choices (all translated from the source):
* The Node.js high-resolution clock (`process.hrtime`) is modelled as a
  monotone counter of nanoseconds since an arbitrary epoch; each call that
  reads the clock takes the current reading as an explicit argument.
  `process.hrtime()` returns a `[seconds, nanoseconds]` pair;
  `process.hrtime(prev)` returns the (nonnegative, by Node's monotonicity
  guarantee) difference as such a pair.
* JavaScript numbers are modelled as exact rationals (`ℚ`); the arithmetic
  performed by the profiler stays far below 2^53 in the intended regime, so
  no float rounding is modelled.
* `this.entries` is a JavaScript array assigned at arbitrary numeric
  indices (`this.entries[id] = ...`), i.e. a sparse array: it is modelled
  as an index-to-entry partial map together with the JS `length`
  (`max` of `index+1` over assignments).  Serialization turns holes into
  JSON `null`, as `JSON.stringify` does.
* The file system (existence/contents of `<cwd>/package.json`) and the
  process identity (`process.pid`, `process.cwd()`) are inputs to `start`.
* `outputJsonSync` is modelled by returning the target path and the JSON
  document that would be written.
-/

/-- A JavaScript `Date`, observed by the profiler only through `toJSON`. -/
structure Date where
  year : Nat
  month : Nat
  day : Nat
  hour : Nat
  minute : Nat
  second : Nat
  ms : Nat
deriving DecidableEq, Repr

/-- Modelled from the spec: `Date.prototype.toJSON` (platform code, not in
`src/`) renders the date as an ISO-8601 extended-format UTC timestamp
`YYYY-MM-DDTHH:MM:SS.mmmZ` (the spec requires "ISO-8601 start/end
timestamps"). Each component is rendered with fixed-width decimal digits. -/
def Date.toJSON (d : Date) : String :=
  String.mk [Nat.digitChar (d.year / 1000 % 10), Nat.digitChar (d.year / 100 % 10),
    Nat.digitChar (d.year / 10 % 10), Nat.digitChar (d.year % 10), '-',
    Nat.digitChar (d.month / 10 % 10), Nat.digitChar (d.month % 10), '-',
    Nat.digitChar (d.day / 10 % 10), Nat.digitChar (d.day % 10), 'T',
    Nat.digitChar (d.hour / 10 % 10), Nat.digitChar (d.hour % 10), ':',
    Nat.digitChar (d.minute / 10 % 10), Nat.digitChar (d.minute % 10), ':',
    Nat.digitChar (d.second / 10 % 10), Nat.digitChar (d.second % 10), '.',
    Nat.digitChar (d.ms / 100 % 10), Nat.digitChar (d.ms / 10 % 10),
    Nat.digitChar (d.ms % 10), 'Z']

/-- Checks that a string has the shape of an ISO-8601 extended-format UTC
timestamp `YYYY-MM-DDTHH:MM:SS.mmmZ`. -/
def isISO8601 (s : String) : Bool :=
  match s.data with
  | [y1, y2, y3, y4, c1, m1, m2, c2, d1, d2, c3, h1, h2, c4, n1, n2, c5, s1, s2, c6,
     f1, f2, f3, c7] =>
    y1.isDigit && y2.isDigit && y3.isDigit && y4.isDigit && (c1 == '-') &&
    m1.isDigit && m2.isDigit && (c2 == '-') && d1.isDigit && d2.isDigit && (c3 == 'T') &&
    h1.isDigit && h2.isDigit && (c4 == ':') && n1.isDigit && n2.isDigit && (c5 == ':') &&
    s1.isDigit && s2.isDigit && (c6 == '.') && f1.isDigit && f2.isDigit && f3.isDigit &&
    (c7 == 'Z')
  | _ => false

/-- The character predicate of the `replace` call in `Profiler.write`,
whose global regex has three alternatives: `-`, `:`, and the empty pattern.
A character is kept unless it is `-` or `:` (the empty alternative matches
the empty string, and replacing an empty match by the empty string is a
no-op). -/
def keepChar (c : Char) : Bool :=
  !(c == '-' || c == ':')

/-- Models the `replace` call of `write` (global regex alternating `-`,
`:` and the empty pattern, replacement the empty string): removes every
`-` and `:`. -/
def stripDashColon (s : String) : String :=
  String.mk (s.data.filter keepChar)

/-- Models `path.join(a, b)` for the simple two-segment use in `write`. -/
def pathJoin (a b : String) : String :=
  a ++ "/" ++ b

/-- A JavaScript array assigned only at numeric indices, as used for
`this.entries`: a partial map from indices to values plus the JS `length`
(one more than the largest assigned index). `none` is a hole. -/
structure JsArray (α : Type) where
  get : Nat → Option α
  length : Nat

/-- The empty array `[]`. -/
def JsArray.empty {α : Type} : JsArray α :=
  { get := fun _ => none, length := 0 }

/-- `a[i] = x`: stores `x` at index `i` and grows `length` to at least
`i + 1`, exactly as JS array index assignment does. -/
def JsArray.set {α : Type} (a : JsArray α) (i : Nat) (x : α) : JsArray α :=
  { get := fun j => if j = i then some x else a.get j,
    length := max a.length (i + 1) }

/-- The dense view used by serialization: element `j` is `a[j]` for
`j < length`, holes included (they serialize as `null`). -/
def JsArray.toList {α : Type} (a : JsArray α) : List (Option α) :=
  (List.range a.length).map a.get

/-- The `ProfileEntry` interface from the source: Chrome-trace fields plus
the extra bookkeeping fields. `dur` is assigned only by `stop`;
`packageName` is `undefined` when no manifest name was captured;
`startTime` is the raw `[seconds, nanoseconds]` pair from `process.hrtime()`. -/
structure ProfileEntry where
  name : String
  ph : String
  ts : ℚ
  pid : Nat
  tid : Nat
  dur : Option ℚ
  id : Nat
  cwd : String
  packageName : Option String
  state : String
  startTime : Nat × Nat
deriving DecidableEq, Repr

/-- `hrtimeToMicroSeconds` from the source:
`(hrtime[0] * 1e9 + hrtime[1]) / 1000`. -/
def hrtimeToMicroSeconds (hrtime : Nat × Nat) : ℚ :=
  ((hrtime.1 * 1000000000 + hrtime.2 : ℕ) : ℚ) / 1000

/-- `process.hrtime()` at absolute clock reading `now` nanoseconds:
the `[seconds, nanoseconds]` pair. -/
def processHrtime (now : Nat) : Nat × Nat :=
  (now / 1000000000, now % 1000000000)

/-- `process.hrtime(prev)` at absolute clock reading `now` nanoseconds: the
difference to `prev`, as a `[seconds, nanoseconds]` pair. The truncated
subtraction encodes Node's guarantee that the high-resolution clock is
monotone (the difference is never negative). -/
def processHrtimeSince (prev : Nat × Nat) (now : Nat) : Nat × Nat :=
  processHrtime (now - (prev.1 * 1000000000 + prev.2))

/-- The observable state of `<cwd>/package.json` when `start` runs:
absent, present but not valid JSON (so `JSON.parse` throws), or parsed
with an optional `name` field. -/
inductive PkgJsonFs where
  | absent
  | invalid
  | valid (name : Option String)
deriving DecidableEq, Repr

/-- The process-level inputs consumed by one `start` call: the
high-resolution clock reading, `process.cwd()`, `process.pid`, and the
state of `<cwd>/package.json`. -/
structure StartEnv where
  hrtimeNow : Nat
  cwd : String
  pid : Nat
  pkgJson : PkgJsonFs
deriving DecidableEq, Repr

/-- The errors the profiler can raise. The source throws
`new Error("Error: Usage of '--profile' encountered an unexpected state.")`
at two distinct sites (duplicate `start`, unmatched `stop`); the
constructors record the throw site, each carrying the thrown message.
`jsonParse` is the exception propagated out of `JSON.parse` when
`package.json` exists but is not valid JSON. -/
inductive ProfilerError where
  | duplicateTask (message : String)
  | unknownTask (message : String)
  | jsonParse
deriving DecidableEq, Repr

/-- The message of both `throw new Error(...)` statements in the source. -/
def usageErrorMessage : String :=
  "Error: Usage of \x27--profile\x27 encountered an unexpected state."

/-- The `existsSync`/`readFileSync`/`JSON.parse`/`.name` block of `start`:
yields the captured package name, or the propagated parse exception. -/
def readPackageName : PkgJsonFs → Except ProfilerError (Option String)
  | PkgJsonFs.absent => Except.ok none
  | PkgJsonFs.invalid => Except.error ProfilerError.jsonParse
  | PkgJsonFs.valid name => Except.ok name

/-- The `Profiler` class state: session start time, output folder,
optional end time (stamped by `write`), and the entries array. -/
structure Profiler where
  startTime : Date
  outputFolder : String
  endTime : Option Date
  entries : JsArray ProfileEntry

/-- The `Profiler` constructor: `this.outputFolder = outputFolder || process.cwd()`
(JS `||`: the empty string is falsy and also falls back to `cwd`),
`this.startTime = new Date()`, `this.entries = []`. -/
def Profiler.create (outputFolder : Option String) (cwd : String) (startTime : Date) :
    Profiler :=
  { startTime := startTime,
    outputFolder :=
      match outputFolder with
      | some s => if s = "" then cwd else s
      | none => cwd,
    endTime := none,
    entries := JsArray.empty }

/-- The entry object literal built by `start`. -/
def mkEntry (id : Nat) (name : String) (env : StartEnv) (packageName : Option String) :
    ProfileEntry :=
  { name := name,
    ph := "X",
    ts := hrtimeToMicroSeconds (processHrtime env.hrtimeNow),
    pid := env.pid,
    tid := id,
    dur := none,
    id := id,
    cwd := env.cwd,
    packageName := packageName,
    state := "running",
    startTime := processHrtime env.hrtimeNow }

/-- `Profiler.start(id, name)`: throws if `this.entries[id]` is set,
otherwise reads the clock and the manifest (a `JSON.parse` failure
propagates) and stores a fresh entry in state `running`. -/
def Profiler.start (p : Profiler) (id : Nat) (name : String) (env : StartEnv) :
    Except ProfilerError Profiler :=
  if (p.entries.get id).isSome then
    Except.error (ProfilerError.duplicateTask usageErrorMessage)
  else
    match readPackageName env.pkgJson with
    | Except.error e => Except.error e
    | Except.ok packageName =>
      Except.ok { p with entries := p.entries.set id (mkEntry id name env packageName) }

/-- The in-place mutation `stop` performs on the found entry:
`entry.state = success ? "succeeded" : "failed"` and
`entry.dur = hrtimeToMicroSeconds(process.hrtime(entry.startTime))`. -/
def stopEntry (success : Bool) (now : Nat) (e : ProfileEntry) : ProfileEntry :=
  { e with
    state := if success then "succeeded" else "failed",
    dur := some (hrtimeToMicroSeconds (processHrtimeSince e.startTime now)) }

/-- `Profiler.stop(id, success)`: throws if `this.entries[id]` is unset,
otherwise updates the entry's `state` and `dur`. -/
def Profiler.stop (p : Profiler) (id : Nat) (success : Bool) (now : Nat) :
    Except ProfilerError Profiler :=
  match p.entries.get id with
  | none => Except.error (ProfilerError.unknownTask usageErrorMessage)
  | some e => Except.ok { p with entries := p.entries.set id (stopEntry success now e) }

/-- The `otherData` block of the written document. -/
structure OtherData where
  source : String
  startTime : String
  endTime : String
deriving DecidableEq, Repr

/-- The JSON document written by `write`, before stringification:
the entries array (holes included), the fixed display unit, and the
session metadata. -/
structure TraceFile where
  traceEvents : List (Option ProfileEntry)
  displayTimeUnit : String
  otherData : OtherData
deriving DecidableEq, Repr

/-- The observable effect of `write`: the path handed to `outputJsonSync`,
the document written there, and the updated profiler (`endTime` stamped). -/
structure WriteResult where
  path : String
  file : TraceFile
  profiler : Profiler

/-- `Profiler.write()`: stamps `this.endTime = new Date()`, builds the file
name `just-tasks-Profile-<endTime.toJSON() with - and : removed>.json`, and
writes the trace document into the output folder. -/
def Profiler.write (p : Profiler) (endTime : Date) : WriteResult :=
  let fileName := "just-tasks-Profile-" ++ stripDashColon endTime.toJSON ++ ".json"
  { path := pathJoin p.outputFolder fileName,
    file :=
      { traceEvents := p.entries.toList,
        displayTimeUnit := "ms",
        otherData :=
          { source := "just-tasks profiler",
            startTime := p.startTime.toJSON,
            endTime := endTime.toJSON } },
    profiler := { p with endTime := some endTime } }

/-- A JSON value, used to model what `JSON.stringify` (inside
`outputJsonSync`) actually emits. -/
inductive Json where
  | null
  | str (s : String)
  | num (q : ℚ)
  | arr (elems : List Json)
  | obj (fields : List (String × Json))

/-- `JSON.stringify` of one entry object. Key order is property insertion
order (`dur`, assigned last by `stop`, comes last); properties whose value
is `undefined` (`packageName` when no name was captured, `dur` before
`stop`) are omitted, as `JSON.stringify` omits `undefined` properties. -/
def entryToJson (e : ProfileEntry) : Json :=
  Json.obj (("name", Json.str e.name) :: ("ph", Json.str e.ph) :: ("ts", Json.num e.ts) ::
    ("pid", Json.num (e.pid : ℚ)) :: ("tid", Json.num (e.tid : ℚ)) ::
    ("cwd", Json.str e.cwd) ::
    ((match e.packageName with
      | some n => [("packageName", Json.str n)]
      | none => []) ++
     (("id", Json.num (e.id : ℚ)) :: ("state", Json.str e.state) ::
      ("startTime", Json.arr [Json.num (e.startTime.1 : ℚ), Json.num (e.startTime.2 : ℚ)]) ::
      (match e.dur with
       | some q => [("dur", Json.num q)]
       | none => []))))

/-- `JSON.stringify` of the whole trace document: array holes become
`null`. -/
def TraceFile.toJson (tf : TraceFile) : Json :=
  Json.obj [("traceEvents",
      Json.arr (tf.traceEvents.map (fun oe =>
        match oe with
        | none => Json.null
        | some e => entryToJson e))),
    ("displayTimeUnit", Json.str tf.displayTimeUnit),
    ("otherData", Json.obj [("source", Json.str tf.otherData.source),
      ("startTime", Json.str tf.otherData.startTime),
      ("endTime", Json.str tf.otherData.endTime)])]

/-- The keys of a JSON object (empty for non-objects). -/
def jsonKeys : Json → List String
  | Json.obj fields => fields.map (fun f => f.1)
  | _ => []

/-- Whether a JSON object has a field named `key`. -/
def jsonHasKey (j : Json) (key : String) : Bool :=
  match j with
  | Json.obj fields => fields.any (fun f => f.1 == key)
  | _ => false

/-- One externally driven call to the recorder, with the process-level
inputs it consumes. -/
inductive Call where
  | start (id : Nat) (name : String) (env : StartEnv)
  | stop (id : Nat) (success : Bool) (now : Nat)
deriving DecidableEq, Repr

/-- Dispatch one call. -/
def Profiler.step (p : Profiler) : Call → Except ProfilerError Profiler
  | Call.start id name env => p.start id name env
  | Call.stop id success now => p.stop id success now

/-- Run a call sequence; the first thrown error aborts the run. -/
def Profiler.run (p : Profiler) : List Call → Except ProfilerError Profiler
  | [] => Except.ok p
  | c :: rest =>
    match p.step c with
    | Except.error e => Except.error e
    | Except.ok p₁ => p₁.run rest

/-- The `(name, env)` payloads of the `start` calls for id `i`, in order. -/
def startsFor (i : Nat) : List Call → List (String × StartEnv)
  | [] => []
  | Call.start j name env :: rest =>
    if j = i then (name, env) :: startsFor i rest else startsFor i rest
  | Call.stop _ _ _ :: rest => startsFor i rest

/-- The `(success, now)` payloads of the `stop` calls for id `i`, in order. -/
def stopsFor (i : Nat) : List Call → List (Bool × Nat)
  | [] => []
  | Call.start _ _ _ :: rest => stopsFor i rest
  | Call.stop j success now :: rest =>
    if j = i then (success, now) :: stopsFor i rest else stopsFor i rest

/-- The ids of the `start` calls, in order. -/
def startedIds : List Call → List Nat
  | [] => []
  | Call.start j _ _ :: rest => j :: startedIds rest
  | Call.stop _ _ _ :: rest => startedIds rest

/-- Spec-side rendering of the file-name timestamp: the "ISO8601 end time
with separators stripped", i.e. the ISO-8601 basic format, in which the
`-` date separators and `:` time separators are absent. This definition
follows the spec's words and is compared against the source's
`stripDashColon ∘ Date.toJSON` in the C6 theorem. -/
def isoBasicFormat (d : Date) : String :=
  String.mk [Nat.digitChar (d.year / 1000 % 10), Nat.digitChar (d.year / 100 % 10),
    Nat.digitChar (d.year / 10 % 10), Nat.digitChar (d.year % 10),
    Nat.digitChar (d.month / 10 % 10), Nat.digitChar (d.month % 10),
    Nat.digitChar (d.day / 10 % 10), Nat.digitChar (d.day % 10), 'T',
    Nat.digitChar (d.hour / 10 % 10), Nat.digitChar (d.hour % 10),
    Nat.digitChar (d.minute / 10 % 10), Nat.digitChar (d.minute % 10),
    Nat.digitChar (d.second / 10 % 10), Nat.digitChar (d.second % 10), '.',
    Nat.digitChar (d.ms / 100 % 10), Nat.digitChar (d.ms / 10 % 10),
    Nat.digitChar (d.ms % 10), 'Z']

/-- Structural invariant of reachable profiler states: every stored entry
records its own index as `id` and `tid` and has phase `"X"`, and nothing
is stored at or beyond the array's `length`. -/
def EntriesWF (p : Profiler) : Prop :=
  ∀ j, (∀ e, p.entries.get j = some e → e.id = j ∧ e.tid = j ∧ e.ph = "X") ∧
    (p.entries.length ≤ j → p.entries.get j = none)

/-- A sample wall-clock date used by the concrete scenarios. -/
def sampleDate : Date :=
  { year := 2024, month := 3, day := 15, hour := 10, minute := 30, second := 45, ms := 123 }

/-- A later sample wall-clock date, used as the `write` end time. -/
def sampleDate2 : Date :=
  { year := 2024, month := 3, day := 15, hour := 10, minute := 31, second := 5, ms := 6 }

/-- A sample `start` environment: clock at 1ms, no `package.json`. -/
def sampleEnv : StartEnv :=
  { hrtimeNow := 1000000, cwd := "/repo", pid := 7, pkgJson := PkgJsonFs.absent }

/-- A sample `start` environment whose `package.json` exists but does not
parse as JSON. -/
def sampleEnvBad : StartEnv :=
  { sampleEnv with pkgJson := PkgJsonFs.invalid }

/-- The profiler state after `start(1, "build")` from a fresh recorder. -/
def startedProfiler : Profiler :=
  match (Profiler.create none "/repo" sampleDate).run [Call.start 1 "build" sampleEnv] with
  | Except.ok p => p
  | Except.error _ => Profiler.create none "/repo" sampleDate

/-- The profiler state after `start(1, "build")` then `stop(1, true)`. -/
def stoppedProfiler : Profiler :=
  match (Profiler.create none "/repo" sampleDate).run
      [Call.start 1 "build" sampleEnv, Call.stop 1 true 4000000] with
  | Except.ok p => p
  | Except.error _ => Profiler.create none "/repo" sampleDate

/-- The profiler state after `start(2, "lint")` from a fresh recorder. -/
def lintProfiler : Profiler :=
  match (Profiler.create none "/repo" sampleDate).run [Call.start 2 "lint" sampleEnv] with
  | Except.ok p => p
  | Except.error _ => Profiler.create none "/repo" sampleDate

/-! ### Basic lemmas about the embedded primitives -/

theorem JsArray.get_set {α : Type} (a : JsArray α) (i j : Nat) (x : α) :
    (a.set i x).get j = if j = i then some x else a.get j :=
  rfl

theorem JsArray.length_set {α : Type} (a : JsArray α) (i : Nat) (x : α) :
    (a.set i x).length = max a.length (i + 1) :=
  rfl

theorem JsArray.toList_length {α : Type} (a : JsArray α) :
    a.toList.length = a.length := by
  simp [JsArray.toList]

theorem JsArray.toList_getD {α : Type} (a : JsArray α) (i : Nat) :
    a.toList.getD i none = if i < a.length then a.get i else none := by
  by_cases h : i < a.length
  · simp [JsArray.toList, List.getD_eq_getElem?_getD, List.getElem?_range, h]
  · have hlen : (List.range a.length).length ≤ i := by
      simpa [List.length_range] using Nat.le_of_not_lt h
    simp [JsArray.toList, List.getD_eq_getElem?_getD, List.getElem?_eq_none hlen, h]

theorem hrtimeToMicroSeconds_nonneg (ht : Nat × Nat) :
    0 ≤ hrtimeToMicroSeconds ht := by
  unfold hrtimeToMicroSeconds
  positivity

theorem digitChar_isDigit (n : Nat) : (Nat.digitChar (n % 10)).isDigit = true := by
  have hall : ∀ k, k < 10 → (Nat.digitChar k).isDigit = true := by decide
  exact hall _ (Nat.mod_lt _ (by norm_num))

theorem keepChar_digitChar (n : Nat) : keepChar (Nat.digitChar (n % 10)) = true := by
  have hall : ∀ k, k < 10 → keepChar (Nat.digitChar k) = true := by decide
  exact hall _ (Nat.mod_lt _ (by norm_num))

theorem keepChar_dash : keepChar '-' = false := by decide

theorem keepChar_colon : keepChar ':' = false := by decide

theorem keepChar_sepT : keepChar 'T' = true := by decide

theorem keepChar_dot : keepChar '.' = true := by decide

theorem keepChar_sepZ : keepChar 'Z' = true := by decide

/-- Every rendered timestamp has the ISO-8601 extended shape. -/
theorem isISO8601_toJSON (d : Date) : isISO8601 d.toJSON = true := by
  simp [isISO8601, Date.toJSON, digitChar_isDigit]

/-- What the source's separator-removing `replace` produces on a rendered
timestamp is exactly the spec's separator-free rendering. -/
theorem stripDashColon_toJSON (d : Date) :
    stripDashColon d.toJSON = isoBasicFormat d := by
  simp [stripDashColon, Date.toJSON, isoBasicFormat, keepChar_digitChar,
    keepChar_dash, keepChar_colon, keepChar_sepT, keepChar_dot, keepChar_sepZ]

/-! ### Characterizing successful calls and runs -/

theorem Profiler.run_cons (p : Profiler) (c : Call) (rest : List Call) :
    p.run (c :: rest) =
      match p.step c with
      | Except.error e => Except.error e
      | Except.ok p₁ => p₁.run rest :=
  rfl

theorem Profiler.run_cons_ok {p p' : Profiler} {c : Call} {rest : List Call}
    (h : p.run (c :: rest) = Except.ok p') :
    ∃ p₁, p.step c = Except.ok p₁ ∧ p₁.run rest = Except.ok p' := by
  rw [Profiler.run_cons] at h
  cases hstep : p.step c with
  | error e => rw [hstep] at h; exact Except.noConfusion h
  | ok p₁ => rw [hstep] at h; exact ⟨p₁, rfl, h⟩

theorem start_ok_elim {p p₁ : Profiler} {j : Nat} {name : String} {env : StartEnv}
    (h : p.start j name env = Except.ok p₁) :
    p.entries.get j = none ∧
      ∃ pn, readPackageName env.pkgJson = Except.ok pn ∧
        p₁ = { p with entries := p.entries.set j (mkEntry j name env pn) } := by
  unfold Profiler.start at h
  cases hj : p.entries.get j with
  | some e => rw [hj] at h; exact Except.noConfusion h
  | none =>
    rw [hj] at h
    simp only [Option.isSome_none, Bool.false_eq_true, if_false] at h
    cases hpn : readPackageName env.pkgJson with
    | error e => rw [hpn] at h; exact Except.noConfusion h
    | ok pn =>
      rw [hpn] at h
      refine ⟨rfl, pn, rfl, ?_⟩
      exact (Except.ok.inj h).symm

theorem stop_ok_elim {p p₁ : Profiler} {j : Nat} {success : Bool} {now : Nat}
    (h : p.stop j success now = Except.ok p₁) :
    ∃ e, p.entries.get j = some e ∧
      p₁ = { p with entries := p.entries.set j (stopEntry success now e) } := by
  unfold Profiler.stop at h
  cases hj : p.entries.get j with
  | none => rw [hj] at h; exact Except.noConfusion h
  | some e =>
    rw [hj] at h
    exact ⟨e, rfl, (Except.ok.inj h).symm⟩

/-- If an entry for `i` exists, a successful run cannot start `i` again,
and the final entry for `i` is the initial one with all stops for `i`
applied in order. -/
theorem run_entry_some {i : Nat} (calls : List Call) :
    ∀ {p p' : Profiler} {e0 : ProfileEntry},
      p.run calls = Except.ok p' → p.entries.get i = some e0 →
      startsFor i calls = [] ∧
        p'.entries.get i =
          some ((stopsFor i calls).foldl (fun e st => stopEntry st.1 st.2 e) e0) := by
  induction calls with
  | nil =>
    intro p p' e0 hrun he
    have hpp : p = p' := Except.ok.inj hrun
    subst hpp
    exact ⟨rfl, he⟩
  | cons c rest ih =>
    intro p p' e0 hrun he
    obtain ⟨p₁, hstep, hrun'⟩ := Profiler.run_cons_ok hrun
    cases c with
    | start j name env =>
      obtain ⟨hjnone, pn, hpn, hp₁⟩ := start_ok_elim hstep
      by_cases hji : j = i
      · subst hji
        rw [he] at hjnone
        exact Option.noConfusion hjnone
      · subst hp₁
        have he₁ : (p.entries.set j (mkEntry j name env pn)).get i = some e0 := by
          rw [JsArray.get_set, if_neg (fun h => hji h.symm)]
          exact he
        obtain ⟨h1, h2⟩ := ih hrun' he₁
        exact ⟨by simp [startsFor, hji, h1], by simpa [stopsFor] using h2⟩
    | stop j s t =>
      obtain ⟨e, hje, hp₁⟩ := stop_ok_elim hstep
      by_cases hji : j = i
      · subst hji
        rw [he] at hje
        have hee : e = e0 := (Option.some.inj hje).symm
        subst hee
        subst hp₁
        have he₁ : (p.entries.set j (stopEntry s t e)).get j = some (stopEntry s t e) := by
          rw [JsArray.get_set, if_pos rfl]
        obtain ⟨h1, h2⟩ := ih hrun' he₁
        refine ⟨by simpa [startsFor] using h1, ?_⟩
        simpa [stopsFor, List.foldl] using h2
      · subst hp₁
        have he₁ : (p.entries.set j (stopEntry s t e)).get i = some e0 := by
          rw [JsArray.get_set, if_neg (fun h => hji h.symm)]
          exact he
        obtain ⟨h1, h2⟩ := ih hrun' he₁
        exact ⟨by simpa [startsFor] using h1, by simp [stopsFor, hji, h2]⟩

/-- If no entry for `i` exists, a successful run either never touches `i`
(no start, no stop, still no entry), or starts it exactly once and then
applies all its stops, in order, to the freshly created entry. -/
theorem run_entry_none {i : Nat} (calls : List Call) :
    ∀ {p p' : Profiler},
      p.run calls = Except.ok p' → p.entries.get i = none →
      (startsFor i calls = [] ∧ stopsFor i calls = [] ∧ p'.entries.get i = none) ∨
      (∃ name env pn, startsFor i calls = [(name, env)] ∧
        readPackageName env.pkgJson = Except.ok pn ∧
        p'.entries.get i =
          some ((stopsFor i calls).foldl (fun e st => stopEntry st.1 st.2 e)
            (mkEntry i name env pn))) := by
  induction calls with
  | nil =>
    intro p p' hrun he
    have hpp : p = p' := Except.ok.inj hrun
    subst hpp
    exact Or.inl ⟨rfl, rfl, he⟩
  | cons c rest ih =>
    intro p p' hrun he
    obtain ⟨p₁, hstep, hrun'⟩ := Profiler.run_cons_ok hrun
    cases c with
    | start j name env =>
      obtain ⟨hjnone, pn, hpn, hp₁⟩ := start_ok_elim hstep
      by_cases hji : j = i
      · subst hji
        subst hp₁
        have he₁ : (p.entries.set j (mkEntry j name env pn)).get j =
            some (mkEntry j name env pn) := by
          rw [JsArray.get_set, if_pos rfl]
        obtain ⟨h1, h2⟩ := run_entry_some rest hrun' he₁
        refine Or.inr ⟨name, env, pn, ?_, hpn, ?_⟩
        · simp [startsFor, h1]
        · simpa [stopsFor] using h2
      · subst hp₁
        have he₁ : (p.entries.set j (mkEntry j name env pn)).get i = none := by
          rw [JsArray.get_set, if_neg (fun h => hji h.symm)]
          exact he
        rcases ih hrun' he₁ with ⟨h1, h2, h3⟩ | ⟨name', env', pn', h1, h2, h3⟩
        · exact Or.inl ⟨by simp [startsFor, hji, h1], by simp [stopsFor, h2], h3⟩
        · exact Or.inr ⟨name', env', pn', by simp [startsFor, hji, h1],
            h2, by simpa [stopsFor] using h3⟩
    | stop j s t =>
      obtain ⟨e, hje, hp₁⟩ := stop_ok_elim hstep
      by_cases hji : j = i
      · subst hji
        rw [he] at hje
        exact Option.noConfusion hje
      · subst hp₁
        have he₁ : (p.entries.set j (stopEntry s t e)).get i = none := by
          rw [JsArray.get_set, if_neg (fun h => hji h.symm)]
          exact he
        rcases ih hrun' he₁ with ⟨h1, h2, h3⟩ | ⟨name', env', pn', h1, h2, h3⟩
        · exact Or.inl ⟨by simpa [startsFor] using h1, by simp [stopsFor, hji, h2], h3⟩
        · exact Or.inr ⟨name', env', pn', by simpa [startsFor] using h1,
            h2, by simp [stopsFor, hji, h3]⟩

/-! ### Structural invariant of reachable states -/

theorem create_wf (outputFolder : Option String) (cwd : String) (t0 : Date) :
    EntriesWF (Profiler.create outputFolder cwd t0) := by
  intro j
  constructor
  · intro e he
    simp [Profiler.create, JsArray.empty] at he
  · intro _
    rfl

theorem step_wf {p p₁ : Profiler} {c : Call} (h : p.step c = Except.ok p₁)
    (hwf : EntriesWF p) : EntriesWF p₁ := by
  cases c with
  | start j name env =>
    obtain ⟨hjnone, pn, hpn, hp₁⟩ := start_ok_elim h
    subst hp₁
    intro k
    constructor
    · intro e he
      rw [JsArray.get_set] at he
      by_cases hkj : k = j
      · rw [if_pos hkj] at he
        have he' : mkEntry j name env pn = e := Option.some.inj he
        subst he'
        subst hkj
        exact ⟨rfl, rfl, rfl⟩
      · rw [if_neg hkj] at he
        exact (hwf k).1 e he
    · intro hlen
      rw [JsArray.length_set] at hlen
      rw [JsArray.get_set]
      have hj1 : j + 1 ≤ k := le_trans (le_max_right _ _) hlen
      rw [if_neg (by omega)]
      exact (hwf k).2 (le_trans (le_max_left _ _) hlen)
  | stop j s t =>
    obtain ⟨e, hje, hp₁⟩ := stop_ok_elim h
    subst hp₁
    intro k
    constructor
    · intro e' he'
      rw [JsArray.get_set] at he'
      by_cases hkj : k = j
      · rw [if_pos hkj] at he'
        have he'' : stopEntry s t e = e' := Option.some.inj he'
        subst he''
        subst hkj
        obtain ⟨h1, h2, h3⟩ := (hwf k).1 e hje
        exact ⟨h1, h2, h3⟩
      · rw [if_neg hkj] at he'
        exact (hwf k).1 e' he'
    · intro hlen
      rw [JsArray.length_set] at hlen
      rw [JsArray.get_set]
      have hj1 : j + 1 ≤ k := le_trans (le_max_right _ _) hlen
      rw [if_neg (by omega)]
      exact (hwf k).2 (le_trans (le_max_left _ _) hlen)

theorem run_wf {calls : List Call} :
    ∀ {p p' : Profiler}, p.run calls = Except.ok p' → EntriesWF p → EntriesWF p' := by
  induction calls with
  | nil =>
    intro p p' hrun hwf
    cases Except.ok.inj hrun
    exact hwf
  | cons c rest ih =>
    intro p p' hrun hwf
    obtain ⟨p₁, hstep, hrun'⟩ := Profiler.run_cons_ok hrun
    exact ih hrun' (step_wf hstep hwf)

/-! ### Array length after a sequence of starts -/

theorem run_length_starts {calls : List Call} :
    ∀ {p p' : Profiler}, (∀ c ∈ calls, ∃ j n env, c = Call.start j n env) →
      p.run calls = Except.ok p' →
      p'.entries.length =
        (startedIds calls).foldl (fun a i => max a (i + 1)) p.entries.length := by
  induction calls with
  | nil =>
    intro p p' _ hrun
    cases Except.ok.inj hrun
    rfl
  | cons c rest ih =>
    intro p p' hall hrun
    obtain ⟨p₁, hstep, hrun'⟩ := Profiler.run_cons_ok hrun
    obtain ⟨j, n, env, rfl⟩ := hall c (List.mem_cons_self c rest)
    obtain ⟨hjnone, pn, hpn, hp₁⟩ := start_ok_elim hstep
    subst hp₁
    have hrest := ih (fun c hc => hall c (List.mem_cons_of_mem _ hc)) hrun'
    rw [hrest]
    simp [startedIds, JsArray.length_set]

theorem foldl_max_succ (l : List Nat) :
    ∀ n : Nat, l.foldl (fun a i => max a (i + 1)) (n + 1) = l.foldl max n + 1 := by
  induction l with
  | nil => intro n; rfl
  | cons x t ih =>
    intro n
    have hmax : max (n + 1) (x + 1) = max n x + 1 := by omega
    simp only [List.foldl_cons, hmax, ih]

theorem foldl_max_nonempty (l : List Nat) (x : Nat) :
    (x :: l).foldl (fun a i => max a (i + 1)) 0 = (x :: l).foldl max 0 + 1 := by
  have h0 : max 0 (x + 1) = max 0 x + 1 := by omega
  simp only [List.foldl_cons, h0, foldl_max_succ]

/-! ### Serialized entry fields -/

theorem jsonKeys_entryToJson (e : ProfileEntry) :
    jsonKeys (entryToJson e) =
      "name" :: "ph" :: "ts" :: "pid" :: "tid" :: "cwd" ::
        ((match e.packageName with
          | some _ => ["packageName"]
          | none => []) ++
         ("id" :: "state" :: "startTime" ::
          (match e.dur with
           | some _ => ["dur"]
           | none => []))) := by
  cases hpk : e.packageName <;> cases hdur : e.dur <;>
    simp [entryToJson, jsonKeys, hpk, hdur]

theorem jsonHasKey_dur (e : ProfileEntry) :
    jsonHasKey (entryToJson e) "dur" = e.dur.isSome := by
  cases hpk : e.packageName <;> cases hdur : e.dur <;>
    simp [entryToJson, jsonHasKey, hpk, hdur]

theorem mem_jsonKeys_packageName (e : ProfileEntry) :
    "packageName" ∈ jsonKeys (entryToJson e) ↔ e.packageName ≠ none := by
  cases hpk : e.packageName <;> cases hdur : e.dur <;>
    simp [jsonKeys_entryToJson, hpk, hdur]

theorem stopEntry_stopEntry (s1 : Bool) (t1 : Nat) (s2 : Bool) (t2 : Nat)
    (e : ProfileEntry) :
    stopEntry s2 t2 (stopEntry s1 t1 e) = stopEntry s2 t2 e :=
  rfl

/-! ### The claims -/

/-- C2 counterexample: on a fresh recorder (no entry for id 0) whose
working directory holds a `package.json` that is not valid JSON,
`start(0, "task")` does not succeed — it propagates the parse error —
even though no entry for the id exists. -/
theorem c2_counterexample :
    (Profiler.create none "/repo" sampleDate).entries.get 0 = none ∧
    (Profiler.create none "/repo" sampleDate).start 0 "task" sampleEnvBad =
      Except.error ProfilerError.jsonParse :=
  ⟨rfl, rfl⟩

/-- C2 (amended): `start(id, name)` fails with the duplicate-task error if
an entry for `id` already exists, aborting immediately with the recorder's
state unchanged (the call only returns the error); otherwise — provided
any `package.json` in the working directory parses as JSON — it succeeds
and stores a new entry for `id` in state `"running"`. -/
theorem start_duplicate_or_running (p : Profiler) (id : Nat) (name : String)
    (env : StartEnv) :
    ((p.entries.get id).isSome = true →
      p.start id name env =
        Except.error (ProfilerError.duplicateTask usageErrorMessage)) ∧
    (p.entries.get id = none → env.pkgJson ≠ PkgJsonFs.invalid →
      ∃ pn, readPackageName env.pkgJson = Except.ok pn ∧
        p.start id name env =
          Except.ok { p with entries := p.entries.set id (mkEntry id name env pn) } ∧
        (mkEntry id name env pn).state = "running") := by
  constructor
  · intro h
    unfold Profiler.start
    rw [if_pos h]
  · intro hnone hpkg
    unfold Profiler.start
    rw [hnone]
    simp only [Option.isSome_none, Bool.false_eq_true, if_false]
    cases henv : env.pkgJson with
    | absent => exact ⟨none, rfl, rfl, rfl⟩
    | invalid => exact absurd henv hpkg
    | valid nm => exact ⟨nm, rfl, rfl, rfl⟩

/-- C2 witness: the non-error branch at a concrete fresh recorder. -/
theorem start_duplicate_or_running_witness :
    ∃ pn, readPackageName sampleEnv.pkgJson = Except.ok pn ∧
      (Profiler.create none "/repo" sampleDate).start 0 "task" sampleEnv =
        Except.ok { Profiler.create none "/repo" sampleDate with
          entries := (Profiler.create none "/repo" sampleDate).entries.set 0
            (mkEntry 0 "task" sampleEnv pn) } ∧
      (mkEntry 0 "task" sampleEnv pn).state = "running" :=
  (start_duplicate_or_running (Profiler.create none "/repo" sampleDate) 0 "task"
    sampleEnv).2 rfl (by decide)

/-- C3: `stop(id, success)` fails with the unknown-task error if no entry
exists for `id` (the call only returns the error, leaving the recorder's
state unchanged); otherwise it sets the entry's state to `"succeeded"` or
`"failed"` per the success flag and its duration to the elapsed time from
the stored start time to now. -/
theorem stop_unknown_or_updates (p : Profiler) (id : Nat) (success : Bool)
    (now : Nat) :
    (p.entries.get id = none →
      p.stop id success now =
        Except.error (ProfilerError.unknownTask usageErrorMessage)) ∧
    (∀ e, p.entries.get id = some e →
      p.stop id success now =
        Except.ok { p with entries := p.entries.set id (stopEntry success now e) } ∧
      (stopEntry success now e).state = (if success then "succeeded" else "failed") ∧
      (stopEntry success now e).dur =
        some (hrtimeToMicroSeconds (processHrtimeSince e.startTime now))) := by
  constructor
  · intro h
    unfold Profiler.stop
    rw [h]
  · intro e he
    unfold Profiler.stop
    rw [he]
    exact ⟨rfl, rfl, rfl⟩

/-- C3 witness: stopping the started task 1 at a concrete state. -/
theorem stop_unknown_or_updates_witness :
    (startedProfiler.entries.get 0 = none →
      startedProfiler.stop 0 true 4000000 =
        Except.error (ProfilerError.unknownTask usageErrorMessage)) ∧
    (∀ e, startedProfiler.entries.get 0 = some e →
      startedProfiler.stop 0 true 4000000 =
        Except.ok { startedProfiler with
          entries := startedProfiler.entries.set 0 (stopEntry true 4000000 e) } ∧
      (stopEntry true 4000000 e).state = (if true then "succeeded" else "failed") ∧
      (stopEntry true 4000000 e).dur =
        some (hrtimeToMicroSeconds (processHrtimeSince e.startTime 4000000))) :=
  stop_unknown_or_updates startedProfiler 0 true 4000000

/-- C9: when `package.json` exists in the working directory but its
contents are not valid JSON, `start(id, name)` on a not-yet-started id
propagates the parse error to the caller; no entry is recorded (the call
only returns the error, leaving the recorder unchanged). -/
theorem start_propagates_parse_error (p : Profiler) (id : Nat) (name : String)
    (env : StartEnv) (hnone : p.entries.get id = none)
    (hbad : env.pkgJson = PkgJsonFs.invalid) :
    p.start id name env = Except.error ProfilerError.jsonParse := by
  unfold Profiler.start
  rw [hnone]
  simp only [Option.isSome_none, Bool.false_eq_true, if_false]
  rw [hbad]
  rfl

/-- C9 witness: a concrete fresh recorder with an unparsable manifest. -/
theorem start_propagates_parse_error_witness :
    (Profiler.create (some "/out") "/repo" sampleDate).start 3 "task" sampleEnvBad =
      Except.error ProfilerError.jsonParse :=
  start_propagates_parse_error (Profiler.create (some "/out") "/repo" sampleDate) 3 "task"
    sampleEnvBad rfl rfl

/-- C10: a second `stop` on an already stopped id does not raise an error;
it overwrites the state per the second success flag and recomputes `dur`
from the original start time, so only the last stop is reflected. -/
theorem stop_twice_last_wins (p : Profiler) (id : Nat) (s1 : Bool) (t1 : Nat)
    (s2 : Bool) (t2 : Nat) (e : ProfileEntry) (he : p.entries.get id = some e) :
    ∃ p2, ((p.stop id s1 t1).bind (fun q => q.stop id s2 t2)) = Except.ok p2 ∧
      p2.entries.get id = some (stopEntry s2 t2 e) ∧
      (stopEntry s2 t2 e).dur =
        some (hrtimeToMicroSeconds (processHrtimeSince e.startTime t2)) := by
  have h1 : p.stop id s1 t1 =
      Except.ok { p with entries := p.entries.set id (stopEntry s1 t1 e) } := by
    unfold Profiler.stop
    rw [he]
  have he1 : ({ p with entries := p.entries.set id (stopEntry s1 t1 e) } :
      Profiler).entries.get id = some (stopEntry s1 t1 e) := by
    show (p.entries.set id (stopEntry s1 t1 e)).get id = _
    rw [JsArray.get_set, if_pos rfl]
  have h2 : ({ p with entries := p.entries.set id (stopEntry s1 t1 e) } :
      Profiler).stop id s2 t2 =
      Except.ok { p with entries := (p.entries.set id (stopEntry s1 t1 e)).set id (stopEntry s2 t2 (stopEntry s1 t1 e)) } := by
    unfold Profiler.stop
    rw [he1]
  refine ⟨{ p with entries := (p.entries.set id (stopEntry s1 t1 e)).set id (stopEntry s2 t2 (stopEntry s1 t1 e)) }, ?_, ?_, rfl⟩
  · rw [h1]
    exact h2
  · show ((p.entries.set id (stopEntry s1 t1 e)).set id (stopEntry s2 t2 (stopEntry s1 t1 e))).get id = some (stopEntry s2 t2 e)
    rw [JsArray.get_set, if_pos rfl, stopEntry_stopEntry]

/-- C10 witness: double stop of the concrete started task 1. -/
theorem stop_twice_last_wins_witness :
    ∃ p2, ((startedProfiler.stop 1 false 2000000).bind
        (fun q => q.stop 1 true 4000000)) = Except.ok p2 ∧
      p2.entries.get 1 = some (stopEntry true 4000000 (mkEntry 1 "build" sampleEnv none)) ∧
      (stopEntry true 4000000 (mkEntry 1 "build" sampleEnv none)).dur =
        some (hrtimeToMicroSeconds
          (processHrtimeSince (mkEntry 1 "build" sampleEnv none).startTime 4000000)) :=
  stop_twice_last_wins startedProfiler 1 false 2000000 true 4000000
    (mkEntry 1 "build" sampleEnv none) rfl

/-- C4 counterexample: after `start(1, "build")`, `stop(1, true)`,
`write()`, element 0 of `traceEvents` is a hole — serialized as `null`, it
has no `name`/`ph`/`state` at all — because the entries array is indexed
by task id, so the `"build"` entry lives at index 1, not 0. -/
theorem c4_counterexample :
    (((Profiler.create none "/repo" sampleDate).run
        [Call.start 1 "build" sampleEnv, Call.stop 1 true 4000000]).toOption.map
      (fun p' => ((p'.write sampleDate2).file.traceEvents.getD 0 none).map
        (fun e => (e.name, e.ph, e.state)))) = some none := by
  decide

/-- C4 (amended): after `start(1, "build")`, `stop(1, true)`, `write()`,
the written JSON's `traceEvents[1]` (the element at the task's id) has
`name === "build"`, `ph === "X"`, and `state === "succeeded"`. -/
theorem trace_event_build_succeeded :
    (((Profiler.create none "/repo" sampleDate).run
        [Call.start 1 "build" sampleEnv, Call.stop 1 true 4000000]).toOption.map
      (fun p' => ((p'.write sampleDate2).file.traceEvents.getD 1 none).map
        (fun e => (e.name, e.ph, e.state)))) =
      some (some ("build", "X", "succeeded")) := by
  decide

/-- C7: after `start(2, "lint")` and `write()` with no stop, the output
contains an entry for id 2 in state `"running"`, whose `dur` is unset and
whose serialized object carries no `dur` field. -/
theorem start_without_stop_running :
    (((Profiler.create none "/repo" sampleDate).run
        [Call.start 2 "lint" sampleEnv]).toOption.map
      (fun p' => ((p'.write sampleDate2).file.traceEvents.getD 2 none).map
        (fun e => (e.state, e.dur, jsonHasKey (entryToJson e) "dur")))) =
      some (some ("running", (none : Option ℚ), false)) := by
  decide

/-- C6: `write()` writes into the configured output directory a file named
`just-tasks-Profile-<ISO-8601 end time with the separators stripped>.json`
(the separator-free basic format), and a recorder constructed with no
output folder defaults that directory to the current working directory. -/
theorem write_path_and_default_folder (p : Profiler) (d : Date) (cwd : String)
    (t0 : Date) :
    (p.write d).path =
      pathJoin p.outputFolder ("just-tasks-Profile-" ++ isoBasicFormat d ++ ".json") ∧
    (Profiler.create none cwd t0).outputFolder = cwd := by
  constructor
  · show pathJoin p.outputFolder
      ("just-tasks-Profile-" ++ stripDashColon d.toJSON ++ ".json") = _
    rw [stripDashColon_toJSON]
  · rfl

/-- C5: the document written by `write()` has exactly the top-level keys
`traceEvents`, `displayTimeUnit` (fixed to `"ms"`) and `otherData` (source
label and ISO-8601 session start and end timestamps); every non-null
trace event has the fields `name`, `ph`, `ts`, `pid`, `tid`, with `ph`
fixed to `"X"`, `tid` equal to the task id, and a `dur` field exactly when
the task was stopped. -/
theorem write_document_schema (of : Option String) (cwd : String) (t0 : Date)
    (calls : List Call) (p' : Profiler) (d : Date)
    (hrun : (Profiler.create of cwd t0).run calls = Except.ok p') :
    jsonKeys (TraceFile.toJson (p'.write d).file) =
      ["traceEvents", "displayTimeUnit", "otherData"] ∧
    (p'.write d).file.displayTimeUnit = "ms" ∧
    (p'.write d).file.otherData.source = "just-tasks profiler" ∧
    isISO8601 (p'.write d).file.otherData.startTime = true ∧
    isISO8601 (p'.write d).file.otherData.endTime = true ∧
    (∀ i e, (p'.write d).file.traceEvents.getD i none = some e →
      e.ph = "X" ∧ e.tid = e.id ∧ e.id = i ∧
      "name" ∈ jsonKeys (entryToJson e) ∧ "ph" ∈ jsonKeys (entryToJson e) ∧
      "ts" ∈ jsonKeys (entryToJson e) ∧ "pid" ∈ jsonKeys (entryToJson e) ∧
      "tid" ∈ jsonKeys (entryToJson e) ∧
      (jsonHasKey (entryToJson e) "dur" = true ↔ e.dur.isSome = true)) := by
  refine ⟨rfl, rfl, rfl, isISO8601_toJSON _, isISO8601_toJSON _, ?_⟩
  intro i e he
  have hwf := run_wf hrun (create_wf of cwd t0)
  have he' : p'.entries.toList.getD i none = some e := he
  rw [JsArray.toList_getD] at he'
  by_cases hi : i < p'.entries.length
  · rw [if_pos hi] at he'
    obtain ⟨h1, h2, h3⟩ := (hwf i).1 e he'
    refine ⟨h3, h2.trans h1.symm, h1, ?_, ?_, ?_, ?_, ?_, ?_⟩
    · rw [jsonKeys_entryToJson]; simp
    · rw [jsonKeys_entryToJson]; simp
    · rw [jsonKeys_entryToJson]; simp
    · rw [jsonKeys_entryToJson]; simp
    · rw [jsonKeys_entryToJson]; simp
    · rw [jsonHasKey_dur]
  · rw [if_neg hi] at he'
    exact Option.noConfusion he'

/-- C5 witness: the schema conjunction at the concrete started recorder. -/
theorem write_document_schema_witness :
    jsonKeys (TraceFile.toJson (startedProfiler.write sampleDate2).file) =
      ["traceEvents", "displayTimeUnit", "otherData"] ∧
    (startedProfiler.write sampleDate2).file.displayTimeUnit = "ms" ∧
    (startedProfiler.write sampleDate2).file.otherData.source = "just-tasks profiler" ∧
    isISO8601 (startedProfiler.write sampleDate2).file.otherData.startTime = true ∧
    isISO8601 (startedProfiler.write sampleDate2).file.otherData.endTime = true ∧
    (∀ i e, (startedProfiler.write sampleDate2).file.traceEvents.getD i none = some e →
      e.ph = "X" ∧ e.tid = e.id ∧ e.id = i ∧
      "name" ∈ jsonKeys (entryToJson e) ∧ "ph" ∈ jsonKeys (entryToJson e) ∧
      "ts" ∈ jsonKeys (entryToJson e) ∧ "pid" ∈ jsonKeys (entryToJson e) ∧
      "tid" ∈ jsonKeys (entryToJson e) ∧
      (jsonHasKey (entryToJson e) "dur" = true ↔ e.dur.isSome = true)) :=
  write_document_schema none "/repo" sampleDate [Call.start 1 "build" sampleEnv]
    startedProfiler sampleDate2 rfl

/-- C1: for every valid call sequence from a fresh recorder in which each
started id is stopped exactly once, the written output contains exactly
one trace entry per started id — it sits at the id's index and no other
trace entry carries that id — with a nonnegative `dur`, and with state
`"succeeded"` when the stop's success flag was true and `"failed"` when it
was false. -/
theorem run_once_stopped_entries (of : Option String) (cwd : String) (t0 : Date)
    (calls : List Call) (p' : Profiler) (d : Date)
    (hrun : (Profiler.create of cwd t0).run calls = Except.ok p')
    (honce : ∀ i, startsFor i calls ≠ [] → (stopsFor i calls).length = 1) :
    ∀ i, startsFor i calls ≠ [] →
      ∃ e, (p'.write d).file.traceEvents.getD i none = some e ∧ e.id = i ∧
        (∀ j e', (p'.write d).file.traceEvents.getD j none = some e' →
          e'.id = e.id → j = i) ∧
        (∃ q, e.dur = some q ∧ 0 ≤ q) ∧
        (∀ s t, stopsFor i calls = [(s, t)] →
          e.state = (if s then "succeeded" else "failed")) := by
  intro i hstarted
  have hwf := run_wf hrun (create_wf of cwd t0)
  have hnone : (Profiler.create of cwd t0).entries.get i = none := rfl
  rcases run_entry_none calls hrun hnone with ⟨h1, _, _⟩ | ⟨name, env, pn, h1, hpn, h3⟩
  · exact absurd h1 hstarted
  · have hlen := honce i hstarted
    obtain ⟨st, hst⟩ : ∃ st, stopsFor i calls = [st] := by
      cases hsf : stopsFor i calls with
      | nil => rw [hsf] at hlen; simp at hlen
      | cons a l =>
        cases l with
        | nil => exact ⟨a, rfl⟩
        | cons b l2 => rw [hsf] at hlen; simp at hlen
    rw [hst] at h3
    have hi : i < p'.entries.length := by
      by_contra hlt
      have hn := (hwf i).2 (Nat.le_of_not_lt hlt)
      rw [hn] at h3
      exact Option.noConfusion h3
    have hgetD : (p'.write d).file.traceEvents.getD i none = p'.entries.get i := by
      have h := JsArray.toList_getD p'.entries i
      rw [if_pos hi] at h
      exact h
    refine ⟨stopEntry st.1 st.2 (mkEntry i name env pn), ?_, rfl, ?_, ?_, ?_⟩
    · rw [hgetD]
      exact h3
    · intro j e' hj hid
      have hj' : p'.entries.toList.getD j none = some e' := hj
      rw [JsArray.toList_getD] at hj'
      by_cases hjl : j < p'.entries.length
      · rw [if_pos hjl] at hj'
        have hjid := ((hwf j).1 e' hj').1
        rw [hjid] at hid
        exact hid
      · rw [if_neg hjl] at hj'
        exact Option.noConfusion hj'
    · exact ⟨hrtimeToMicroSeconds
        (processHrtimeSince (mkEntry i name env pn).startTime st.2), rfl,
        hrtimeToMicroSeconds_nonneg _⟩
    · intro s t hstEq
      rw [hst] at hstEq
      have hpair : st = (s, t) := (List.cons.inj hstEq).1
      subst hpair
      rfl

/-- C1 witness: the concrete started-and-stopped scenario at id 1. -/
theorem run_once_stopped_entries_witness :
    ∃ e, (stoppedProfiler.write sampleDate2).file.traceEvents.getD 1 none = some e ∧
      e.id = 1 ∧
      (∀ j e', (stoppedProfiler.write sampleDate2).file.traceEvents.getD j none = some e' →
        e'.id = e.id → j = 1) ∧
      (∃ q, e.dur = some q ∧ 0 ≤ q) ∧
      (∀ s t, stopsFor 1 [Call.start 1 "build" sampleEnv, Call.stop 1 true 4000000] =
          [(s, t)] →
        e.state = (if s then "succeeded" else "failed")) :=
  run_once_stopped_entries none "/repo" sampleDate
    [Call.start 1 "build" sampleEnv, Call.stop 1 true 4000000] stoppedProfiler sampleDate2
    rfl
    (by
      intro i hi
      by_cases h1 : 1 = i
      · subst h1
        decide
      · exfalso
        apply hi
        simp [startsFor, h1])
    1 (by decide)

/-- C8 counterexample: a successful sequence of starts (one start, with no
`package.json` present) whose single serialized trace event does not carry
a `packageName` field — `JSON.stringify` omits properties whose value is
`undefined` — refuting that all the extra fields appear on every
serialized trace event. -/
theorem c8_counterexample :
    (((Profiler.create none "/repo" sampleDate).run
        [Call.start 0 "build" sampleEnv]).toOption.map
      (fun p' => (p'.write sampleDate2).file.traceEvents.map
        (fun oe => oe.map (fun e => jsonHasKey (entryToJson e) "packageName")))) =
      some [some false] := by
  decide

/-- C8 (amended): after any successful sequence of starts from a fresh
recorder, the serialized `traceEvents` array has length
(maximum started id) + 1, with a null element at every never-started
index; the extra non-schema fields `id`, `cwd`, `state`, `startTime`
appear on every serialized trace event, and `packageName` appears exactly
when a package name was captured (it is omitted when `undefined`). -/
theorem run_starts_serialization (of : Option String) (cwd : String) (t0 : Date)
    (calls : List Call) (p' : Profiler) (d : Date)
    (hstarts : ∀ c ∈ calls, ∃ j n env, c = Call.start j n env)
    (hrun : (Profiler.create of cwd t0).run calls = Except.ok p') :
    (p'.write d).file.traceEvents.length =
      (startedIds calls).foldl (fun a i => max a (i + 1)) 0 ∧
    (calls ≠ [] →
      (p'.write d).file.traceEvents.length = (startedIds calls).foldl max 0 + 1) ∧
    (∀ i, startsFor i calls = [] →
      (p'.write d).file.traceEvents.getD i none = none) ∧
    (∀ i, startsFor i calls ≠ [] →
      ∃ e, (p'.write d).file.traceEvents.getD i none = some e) ∧
    (∀ oe ∈ (p'.write d).file.traceEvents, ∀ e, oe = some e →
      "id" ∈ jsonKeys (entryToJson e) ∧ "cwd" ∈ jsonKeys (entryToJson e) ∧
      "state" ∈ jsonKeys (entryToJson e) ∧ "startTime" ∈ jsonKeys (entryToJson e) ∧
      ("packageName" ∈ jsonKeys (entryToJson e) ↔ e.packageName ≠ none)) := by
  have hwf := run_wf hrun (create_wf of cwd t0)
  have hlen0 : (Profiler.create of cwd t0).entries.length = 0 := rfl
  have hlength : p'.entries.length =
      (startedIds calls).foldl (fun a i => max a (i + 1)) 0 := by
    have h := run_length_starts hstarts hrun
    rw [hlen0] at h
    exact h
  have hTlen : (p'.write d).file.traceEvents.length = p'.entries.length :=
    JsArray.toList_length _
  refine ⟨?_, ?_, ?_, ?_, ?_⟩
  · rw [hTlen, hlength]
  · intro hne
    cases hc : calls with
    | nil => exact absurd hc hne
    | cons c rest =>
      obtain ⟨j, n, env, hc'⟩ := hstarts c (by rw [hc]; exact List.mem_cons_self c rest)
      rw [hTlen, hlength, hc, hc']
      show (j :: startedIds rest).foldl (fun a i => max a (i + 1)) 0 =
        (j :: startedIds rest).foldl max 0 + 1
      exact foldl_max_nonempty _ j
  · intro i hsf
    have hget : p'.entries.get i = none := by
      rcases run_entry_none calls hrun rfl with ⟨_, _, h3⟩ | ⟨name, env, pn, h1, _, _⟩
      · exact h3
      · rw [hsf] at h1
        exact List.noConfusion h1
    show p'.entries.toList.getD i none = none
    rw [JsArray.toList_getD]
    by_cases hi : i < p'.entries.length
    · rw [if_pos hi]
      exact hget
    · rw [if_neg hi]
  · intro i hsf
    rcases run_entry_none calls hrun rfl with ⟨h1, _, _⟩ | ⟨name, env, pn, h1, hpn, h3⟩
    · exact absurd h1 hsf
    · have hi : i < p'.entries.length := by
        by_contra hlt
        have hn := (hwf i).2 (Nat.le_of_not_lt hlt)
        rw [hn] at h3
        exact Option.noConfusion h3
      refine ⟨(stopsFor i calls).foldl (fun e st => stopEntry st.1 st.2 e)
        (mkEntry i name env pn), ?_⟩
      show p'.entries.toList.getD i none = some _
      rw [JsArray.toList_getD, if_pos hi]
      exact h3
  · intro oe hmem e hoe
    refine ⟨?_, ?_, ?_, ?_, mem_jsonKeys_packageName e⟩
    · rw [jsonKeys_entryToJson]; simp
    · rw [jsonKeys_entryToJson]; simp
    · rw [jsonKeys_entryToJson]; simp
    · rw [jsonKeys_entryToJson]; simp

/-- C8 witness: the amended statement at the concrete lint scenario. -/
theorem run_starts_serialization_witness :
    (lintProfiler.write sampleDate2).file.traceEvents.length =
      (startedIds [Call.start 2 "lint" sampleEnv]).foldl (fun a i => max a (i + 1)) 0 ∧
    ([Call.start 2 "lint" sampleEnv] ≠ ([] : List Call) →
      (lintProfiler.write sampleDate2).file.traceEvents.length =
        (startedIds [Call.start 2 "lint" sampleEnv]).foldl max 0 + 1) ∧
    (∀ i, startsFor i [Call.start 2 "lint" sampleEnv] = [] →
      (lintProfiler.write sampleDate2).file.traceEvents.getD i none = none) ∧
    (∀ i, startsFor i [Call.start 2 "lint" sampleEnv] ≠ [] →
      ∃ e, (lintProfiler.write sampleDate2).file.traceEvents.getD i none = some e) ∧
    (∀ oe ∈ (lintProfiler.write sampleDate2).file.traceEvents, ∀ e, oe = some e →
      "id" ∈ jsonKeys (entryToJson e) ∧ "cwd" ∈ jsonKeys (entryToJson e) ∧
      "state" ∈ jsonKeys (entryToJson e) ∧ "startTime" ∈ jsonKeys (entryToJson e) ∧
      ("packageName" ∈ jsonKeys (entryToJson e) ↔ e.packageName ≠ none)) :=
  run_starts_serialization none "/repo" sampleDate [Call.start 2 "lint" sampleEnv]
    lintProfiler sampleDate2
    (by
      intro c hc
      rw [List.mem_singleton] at hc
      exact ⟨2, "lint", sampleEnv, hc⟩)
    rfl
